import Mathlib

/-!
Verification of the SmartRate tender-quotation core (a React/TypeScript
application).  The definitions below are a shallow embedding of the
program's data model and of its pure decision logic:

* `SORItem`, `TenderItem` — the interfaces of `src/types.ts` (duplicated
  verbatim inside `src/index.tsx` and `src/unnamed/part_001`); JS numbers
  are modelled as `ℚ`, optional fields as `Option`.
* the Gemini service wrappers (`findBestMatchingItem`, `parseBulkItems`)
  — their external call is modelled by an injected oracle returning
  `Except String _`; the `.error` case covers both a thrown error and
  content on which `JSON.parse` fails, which the source catches inside
  its `try`/`catch`.  Each wrapper also reports how many external calls
  it performed, so that "the service is never invoked" is provable.
* the two near-duplicate orchestrators: `handleProcess` embeds
  `TenderProcessor.handleProcess` of `src/unnamed/part_001` (whitespace
  guard, matched/review/no-match rule) and `handleProcessIdx` embeds
  `TenderProcessor.handleProcess` of `src/index.tsx` (no guard, any
  match gives 'review').
* `isLowest` (`RateList`), `handleAddOrUpdateRate` (editing branch),
  and the two localStorage load effects.
* `lineAmount` and `calculateTotal`, the quotation arithmetic, computed
  as the program computes it: on IEEE-754 binary64 values, modelled as
  canonical mantissa/exponent pairs with round-to-nearest-even, since
  double addition is order-sensitive.
-/

/-- `SORItem` of `src/types.ts`: a Schedule-of-Rates catalog record. -/
structure SORItem where
  id : String
  name : String
  unit : String
  rate : ℚ
  scopeOfWork : String
  source : String
  timestamp : Nat
deriving DecidableEq

/-- The `status` enumeration of `TenderItem` in `src/types.ts`. -/
inductive Status where
  | pending
  | matched
  | review
  | noMatch
deriving DecidableEq

/-- `TenderItem` of `src/types.ts`: a resolved tender line. -/
structure TenderItem where
  id : String
  name : String
  quantity : ℚ
  requestedScope : String
  estimatedRate : Option ℚ
  matchedRate : Option SORItem
  status : Status
deriving DecidableEq

/-- One record of the array produced by `gemini.parseBulkItems`
(`TenderLineRequest` in the spec).  `quantity` is `Option ℚ`: `none`
models the JS falsy non-numbers (`undefined`, `NaN`), which behave like
`0` under the `||` default applied by the orchestrators. -/
structure Candidate where
  name : String
  quantity : Option ℚ
  requestedScope : String
  estimatedRate : Option ℚ
deriving DecidableEq

/-- The external extraction capability behind `gemini.parseBulkItems`:
given the input text it either fails (thrown error, or a response whose
text `JSON.parse` rejects) or yields the extracted candidate list. -/
def ExtractorOracle : Type := String → Except String (List Candidate)

/-- The external matching capability behind the Gemini call inside
`findBestMatchingItem`: given the target name, target scope and the
(id, name) index of the catalog, it either fails or yields the parsed
`matchedId` field (which may itself be null). -/
def MatcherOracle : Type := String → String → List (String × String) → Except String (Option String)

/-- JS `x || null` applied to the parsed `matchedId`: an empty string is
falsy and collapses to null. -/
def jsOrNull : Option String → Option String
  | some "" => none
  | x => x

/-- JS `p.quantity || 1` as used by both orchestrators: `undefined`,
`NaN` (both modelled by `none`) and `0` are falsy and default to `1`;
every other number — including negative ones — is kept. -/
def jsOrOne : Option ℚ → ℚ
  | none => 1
  | some x => if x = 0 then 1 else x

/-- JS `String.prototype.toLowerCase()` modelled over the character
list (ASCII lowering, which covers every string the program compares). -/
def jsToLower (s : String) : String := String.mk (s.data.map Char.toLower)

/-- JS `String.prototype.trim()` modelled over the character list:
leading and trailing whitespace is removed. -/
def jsTrim (s : String) : String :=
  String.mk (((s.data.dropWhile Char.isWhitespace).reverse.dropWhile Char.isWhitespace).reverse)

/-- `gemini.findBestMatchingItem` (`src/unnamed/part_000` lines 58-96,
duplicated in `src/index.tsx` and `src/unnamed/part_001`): returns null
immediately when the catalog index is empty, otherwise performs one
external call, with any error caught and turned into null.  The second
component counts external calls. -/
def findBestMatchingItem (mOracle : MatcherOracle) (targetItemName targetScope : String)
    (dbItems : List (String × String)) : Option String × Nat :=
  if dbItems.length = 0 then (none, 0)
  else
    match mOracle targetItemName targetScope dbItems with
    | Except.error _ => (none, 1)
    | Except.ok mid => (jsOrNull mid, 1)

/-- `gemini.parseBulkItems` (`src/unnamed/part_000` lines 98-128,
duplicated in both `index.tsx` variants): one external call; any failure
is caught and becomes the empty list.  The second component counts
external calls. -/
def parseBulkItems (eOracle : ExtractorOracle) (text : String) : List Candidate × Nat :=
  match eOracle text with
  | Except.error _ => ([], 1)
  | Except.ok items => (items, 1)

/-- The status expression of `src/unnamed/part_001` line 273:
`match ? (match.name.toLowerCase() === p.name.toLowerCase() ? 'matched' : 'review') : 'no-match'`. -/
def statusOf (bestMatch : Option SORItem) (pname : String) : Status :=
  match bestMatch with
  | some m => if jsToLower m.name == jsToLower pname then Status.matched else Status.review
  | none => Status.noMatch

/-- The status expression of `src/index.tsx` line 279:
`bestMatch ? 'review' : 'no-match'`. -/
def statusOfIdx (bestMatch : Option SORItem) : Status :=
  match bestMatch with
  | some _ => Status.review
  | none => Status.noMatch

/-- The per-candidate body of the `for (const p of parsed)` loop of
`TenderProcessor.handleProcess` in `src/unnamed/part_001` (lines
263-274): resolve a match, look the id up in the catalog, and build the
`TenderItem`.  `fid` stands for the `crypto.randomUUID()` call. -/
def resolveItem (mOracle : MatcherOracle) (sorData : List SORItem) (fid : String)
    (p : Candidate) : TenderItem × Nat :=
  let fr := findBestMatchingItem mOracle p.name p.requestedScope
      (sorData.map fun d => (d.id, d.name))
  let bestMatch := fr.1.bind fun mid => sorData.find? fun d => d.id == mid
  ({ id := fid
     name := p.name
     quantity := jsOrOne p.quantity
     requestedScope := p.requestedScope
     estimatedRate := p.estimatedRate
     matchedRate := bestMatch
     status := statusOf bestMatch p.name }, fr.2)

/-- The per-candidate body of the loop of `TenderProcessor.handleProcess`
in `src/index.tsx` (lines 269-281), whose status rule is
`bestMatch ? 'review' : 'no-match'`. -/
def resolveItemIdx (mOracle : MatcherOracle) (sorData : List SORItem) (fid : String)
    (p : Candidate) : TenderItem × Nat :=
  let fr := findBestMatchingItem mOracle p.name p.requestedScope
      (sorData.map fun d => (d.id, d.name))
  let bestMatch := fr.1.bind fun mid => sorData.find? fun d => d.id == mid
  ({ id := fid
     name := p.name
     quantity := jsOrOne p.quantity
     requestedScope := p.requestedScope
     estimatedRate := p.estimatedRate
     matchedRate := bestMatch
     status := statusOfIdx bestMatch }, fr.2)

/-- The sequential `for`-loop shared by both orchestrators, parameterised
by the per-candidate resolver; `k` indexes the fresh-id supply `fids`
(one `crypto.randomUUID()` per item).  Returns the item list in
extraction order together with the total number of matcher calls. -/
def processLoop (resolve : String → Candidate → TenderItem × Nat) (fids : Nat → String) :
    List Candidate → Nat → List TenderItem × Nat
  | [], _ => ([], 0)
  | p :: ps, k =>
    let r := resolve (fids k) p
    let rest := processLoop resolve fids ps (k + 1)
    (r.1 :: rest.1, r.2 + rest.2)

/-- The observable outcome of one run of an orchestrator: the resolved
items plus how many external extraction and matching calls were made. -/
structure ProcResult where
  items : List TenderItem
  extractorCalls : Nat
  matcherCalls : Nat
deriving DecidableEq

/-- `TenderProcessor.handleProcess` of `src/unnamed/part_001` (lines
257-278): guards on `!jsTrim inputText()`, extracts, then resolves each
candidate in order with the matched/review/no-match status rule. -/
def handleProcess (eOracle : ExtractorOracle) (mOracle : MatcherOracle) (fids : Nat → String)
    (inputText : String) (sorData : List SORItem) : ProcResult :=
  if jsTrim inputText = "" then ⟨[], 0, 0⟩
  else
    let pr := parseBulkItems eOracle inputText
    let lp := processLoop (resolveItem mOracle sorData) fids pr.1 0
    ⟨lp.1, pr.2, lp.2⟩

/-- `TenderProcessor.handleProcess` of `src/index.tsx` (lines 265-284):
no whitespace guard (the caller disables the button instead), and any
found match is classified 'review'. -/
def handleProcessIdx (eOracle : ExtractorOracle) (mOracle : MatcherOracle) (fids : Nat → String)
    (inputText : String) (sorData : List SORItem) : ProcResult :=
  let pr := parseBulkItems eOracle inputText
  let lp := processLoop (resolveItemIdx mOracle sorData) fids pr.1 0
  ⟨lp.1, pr.2, lp.2⟩

/-!
### Binary64 model of the quotation arithmetic

The source computes amounts and the grand total on JS numbers, i.e.
IEEE-754 binary64 values, whose addition is *not* associative or
permutation-invariant.  A finite double is a dyadic rational; the model
below represents one as a canonical mantissa/exponent pair `(m, e)` with
value `m * 2 ^ e` and `2 ^ 52 ≤ |m| < 2 ^ 53` (or `(0, 0)` for zero),
and implements round-to-nearest, ties-to-even.  It covers the normal
range — no overflow, subnormal, infinity or NaN handling, none of which
the program's magnitudes reach — and uses only structurally recursive
integer arithmetic so that concrete runs evaluate in the kernel.
-/

/-- Structurally recursive floor of log2 (the first argument is fuel,
always called with `fuel = n ≥ n`'s recursion depth). -/
def log2Aux : Nat → Nat → Nat
  | 0, _ => 0
  | fuel + 1, n => if n < 2 then 0 else log2Aux fuel (n / 2) + 1

/-- Floor of log2 on naturals, total (0 for inputs below 2). -/
def natLog2 (n : Nat) : Nat := log2Aux n n

/-- Round the dyadic value `M * 2 ^ e` to binary64: keep at most 53
mantissa bits, rounding to nearest with ties to even, and renormalise to
the canonical `2 ^ 52 ≤ |m| < 2 ^ 53` form. -/
def roundDyadic (M : Int) (e : Int) : Int × Int :=
  if M = 0 then (0, 0)
  else
    let s := M.natAbs
    let b := natLog2 s
    if b ≤ 52 then
      ((if M < 0 then -(s * 2 ^ (52 - b) : Int) else (s * 2 ^ (52 - b) : Int)), e - (52 - b))
    else
      let sh := b - 52
      let q := s / 2 ^ sh
      let r := s % 2 ^ sh
      let half := 2 ^ (sh - 1)
      let m := if r < half then q else if half < r then q + 1
        else if q % 2 = 0 then q else q + 1
      let me : Nat × Int := if m = 2 ^ 53 then (2 ^ 52, e + sh + 1) else (m, e + sh)
      ((if M < 0 then -(me.1 : Int) else (me.1 : Int)), me.2)

/-- Round the positive rational `n / d` to the nearest binary64,
returning the canonical mantissa/exponent pair. -/
def rndPosQ (n d : Nat) : Nat × Int :=
  let k : Int := (natLog2 n : Int) - (natLog2 d : Int)
  let lt : Bool := if 0 ≤ k then n < d * 2 ^ k.toNat else n * 2 ^ (-k).toNat < d
  let L : Int := if lt then k - 1 else k
  let e : Int := L - 52
  let nd : Nat × Nat := if 0 ≤ e then (n, d * 2 ^ e.toNat) else (n * 2 ^ (-e).toNat, d)
  let q := nd.1 / nd.2
  let r := nd.1 % nd.2
  let m := if 2 * r < nd.2 then q else if nd.2 < 2 * r then q + 1
    else if q % 2 = 0 then q else q + 1
  if m = 2 ^ 53 then (2 ^ 52, e + 1) else (m, e)

/-- The binary64 value of a rational (correctly rounded), as stored in a
JS number variable. -/
def toDouble (x : ℚ) : Int × Int :=
  if x.num = 0 then (0, 0)
  else
    let me := rndPosQ x.num.natAbs x.den
    ((if x.num < 0 then -(me.1 : Int) else (me.1 : Int)), me.2)

/-- IEEE-754 binary64 addition on canonical pairs: the exact sum of the
two dyadic values, rounded once. -/
def addCore (x y : Int × Int) : Int × Int :=
  if x.1 = 0 then y else if y.1 = 0 then x
  else
    let e := if x.2 ≤ y.2 then x.2 else y.2
    roundDyadic (x.1 * 2 ^ (x.2 - e).toNat + y.1 * 2 ^ (y.2 - e).toNat) e

/-- IEEE-754 binary64 multiplication on canonical pairs: the exact
product, rounded once. -/
def mulCore (x y : Int × Int) : Int × Int :=
  roundDyadic (x.1 * y.1) (x.2 + y.2)

/-- Per-item amount `item.quantity * (item.matchedRate?.rate || 0)` as in
`calculateTotal` of `src/unnamed/part_001` (line 280) and the grand-total
reduce of `src/index.tsx` (line 318), computed as the program computes
it: a binary64 product of the two stored doubles. -/
def lineAmount (item : TenderItem) : Int × Int :=
  mulCore (toDouble item.quantity)
    (toDouble (match item.matchedRate with
      | some r => r.rate
      | none => 0))

/-- `calculateTotal` of `src/unnamed/part_001` line 280:
`items.reduce((sum, item) => sum + item.quantity * (item.matchedRate?.rate || 0), 0)`,
a left-to-right fold of binary64 additions starting from 0. -/
def calculateTotal (items : List TenderItem) : Int × Int :=
  items.foldl (fun sum item => addCore sum (lineAmount item)) (0, 0)

/-- JS `Math.min(...xs)` over a spread list; with no arguments it yields
Infinity, which is unreachable behind the short-circuiting length guard
of `isLowest` and is modelled here by the junk value 0. -/
def jsMathMin : List ℚ → ℚ
  | [] => 0
  | x :: xs => xs.foldl min x

/-- `isLowest` of the `RateList` component (`src/index.tsx` lines
230-233, `src/unnamed/part_001` lines 209-212): an item is flagged
lowest when more than one record shares its name case-insensitively and
its rate equals the minimum rate among them. -/
def isLowest (allRates : List SORItem) (item : SORItem) : Bool :=
  let sameItems := allRates.filter fun r => jsToLower r.name == jsToLower item.name
  decide (sameItems.length > 1) &&
    decide (item.rate = jsMathMin (sameItems.map SORItem.rate))

/-- The non-identity fields supplied when editing a record:
`Omit<SORItem, 'id' | 'timestamp'>`. -/
structure SORFields where
  name : String
  unit : String
  rate : ℚ
  scopeOfWork : String
  source : String
deriving DecidableEq

/-- The editing branch of `handleAddOrUpdateRate` (`src/App.tsx` lines
42-55, `src/index.tsx` lines 344-352, `src/unnamed/part_001` lines
372-380):
`prev.map(r => r.id === editingItem.id ? { ...item, id: r.id, timestamp: r.timestamp } : r)`. -/
def handleAddOrUpdateRate (sorData : List SORItem) (editingId : String)
    (item : SORFields) : List SORItem :=
  sorData.map fun r =>
    if r.id = editingId then
      { id := r.id
        name := item.name
        unit := item.unit
        rate := item.rate
        scopeOfWork := item.scopeOfWork
        source := item.source
        timestamp := r.timestamp }
    else r

/-- The load effect of `src/App.tsx` (lines 26-36).  The stored payload
is modelled as `none` (nothing under the key) or `some` of the result of
`JSON.parse` on the stored string (`.error` when it throws).  This
variant wraps the parse in `try`/`catch` and falls back to the empty
catalog, so it always yields a catalog. -/
def loadCatalogApp : Option (Except String (List SORItem)) → List SORItem
  | none => []
  | some (Except.error _) => []
  | some (Except.ok l) => l

/-- The load effect of `src/index.tsx` (lines 335-338) and
`src/unnamed/part_001` (lines 363-366):
`if (saved) setSorData(JSON.parse(saved));` with no `try`/`catch`, so a
parse failure escapes the effect as an exception (`.error`). -/
def loadCatalogIdx : Option (Except String (List SORItem)) → Except String (List SORItem)
  | none => Except.ok []
  | some (Except.error e) => Except.error e
  | some (Except.ok l) => Except.ok l

/-! ## Concrete fixtures used by witnesses and counterexamples -/

/-- An extractor whose external call always succeeds with a fixed list. -/
def constEO (cs : List Candidate) : ExtractorOracle := fun _ => Except.ok cs

/-- An extractor whose external call always throws. -/
def errEO (msg : String) : ExtractorOracle := fun _ => Except.error msg

/-- A matcher whose external call always succeeds with a fixed id. -/
def constMO (r : Option String) : MatcherOracle := fun _ _ _ => Except.ok r

/-- A deterministic stand-in for `crypto.randomUUID()`. -/
def fidsDefault : Nat → String := fun n => "T" ++ toString n

/-- A catalog record named "Pipe". -/
def recPipe : SORItem :=
  { id := "A", name := "Pipe", unit := "m", rate := 120, scopeOfWork := "GI pipe supply",
    source := "SOR-1", timestamp := 10 }

/-- A candidate whose name equals `recPipe`'s case-insensitively. -/
def candPipe : Candidate :=
  { name := "pipe", quantity := some 50, requestedScope := "GI pipe", estimatedRate := none }

/-- A candidate carrying a negative extracted quantity. -/
def candNeg : Candidate :=
  { name := "pipe", quantity := some (-5), requestedScope := "GI pipe", estimatedRate := none }

/-! ## Helper lemmas -/

theorem processLoop_nil (resolve : String → Candidate → TenderItem × Nat) (fids : Nat → String)
    (k : Nat) : processLoop resolve fids [] k = ([], 0) := rfl

theorem processLoop_cons (resolve : String → Candidate → TenderItem × Nat) (fids : Nat → String)
    (p : Candidate) (ps : List Candidate) (k : Nat) :
    processLoop resolve fids (p :: ps) k =
      ((resolve (fids k) p).1 :: (processLoop resolve fids ps (k + 1)).1,
       (resolve (fids k) p).2 + (processLoop resolve fids ps (k + 1)).2) := rfl

theorem processLoop_mem (resolve : String → Candidate → TenderItem × Nat) (fids : Nat → String) :
    ∀ (ps : List Candidate) (k : Nat) (item : TenderItem),
      item ∈ (processLoop resolve fids ps k).1 →
      ∃ s p, p ∈ ps ∧ item = (resolve s p).1 := by
  intro ps
  induction ps with
  | nil => intro k item h; rw [processLoop_nil] at h; cases h
  | cons p ps ih =>
    intro k item h
    rw [processLoop_cons] at h
    rcases List.mem_cons.mp h with h | h
    · exact ⟨fids k, p, List.mem_cons_self p ps, h⟩
    · obtain ⟨s, q, hq, he⟩ := ih (k + 1) item h
      exact ⟨s, q, List.mem_cons_of_mem p hq, he⟩

theorem processLoop_length (resolve : String → Candidate → TenderItem × Nat)
    (fids : Nat → String) : ∀ (ps : List Candidate) (k : Nat),
      (processLoop resolve fids ps k).1.length = ps.length := by
  intro ps
  induction ps with
  | nil => intro k; rfl
  | cons p ps ih => intro k; rw [processLoop_cons]; simp [ih (k + 1)]

theorem processLoop_getElem (resolve : String → Candidate → TenderItem × Nat)
    (fids : Nat → String) : ∀ (ps : List Candidate) (k i : Nat) (h : i < ps.length),
      (processLoop resolve fids ps k).1[i]? = some (resolve (fids (k + i)) (ps.get ⟨i, h⟩)).1 := by
  intro ps
  induction ps with
  | nil => intro k i h; cases h
  | cons p ps ih =>
    intro k i h
    rw [processLoop_cons]
    cases i with
    | zero => simp
    | succ j =>
      have hj : j < ps.length := Nat.lt_of_succ_lt_succ h
      have := ih (k + 1) j hj
      simp only [List.getElem?_cons_succ]
      rw [this]
      have harith : k + 1 + j = k + (j + 1) := by omega
      rw [harith]
      rfl

theorem processLoop_calls_zero (resolve : String → Candidate → TenderItem × Nat)
    (fids : Nat → String) (h : ∀ s p, (resolve s p).2 = 0) :
    ∀ (ps : List Candidate) (k : Nat), (processLoop resolve fids ps k).2 = 0 := by
  intro ps
  induction ps with
  | nil => intro k; rfl
  | cons p ps ih => intro k; rw [processLoop_cons]; simp [h (fids k) p, ih (k + 1)]

theorem resolveItem_status (mOracle : MatcherOracle) (sorData : List SORItem) (fid : String)
    (p : Candidate) :
    (resolveItem mOracle sorData fid p).1.status =
      statusOf (resolveItem mOracle sorData fid p).1.matchedRate
        (resolveItem mOracle sorData fid p).1.name := rfl

theorem resolveItemIdx_status (mOracle : MatcherOracle) (sorData : List SORItem) (fid : String)
    (p : Candidate) :
    (resolveItemIdx mOracle sorData fid p).1.status =
      statusOfIdx (resolveItemIdx mOracle sorData fid p).1.matchedRate := rfl

theorem statusOf_none (pname : String) : statusOf none pname = Status.noMatch := rfl

theorem statusOf_some (m : SORItem) (pname : String) :
    statusOf (some m) pname =
      if jsToLower m.name == jsToLower pname then Status.matched else Status.review := rfl

theorem statusOfIdx_none : statusOfIdx none = Status.noMatch := rfl

theorem statusOfIdx_some (m : SORItem) : statusOfIdx (some m) = Status.review := rfl

theorem resolveItem_empty (mOracle : MatcherOracle) (fid : String) (p : Candidate) :
    resolveItem mOracle [] fid p =
      ({ id := fid, name := p.name, quantity := jsOrOne p.quantity,
         requestedScope := p.requestedScope, estimatedRate := p.estimatedRate,
         matchedRate := none, status := Status.noMatch }, 0) := rfl

theorem resolveItemIdx_empty (mOracle : MatcherOracle) (fid : String) (p : Candidate) :
    resolveItemIdx mOracle [] fid p =
      ({ id := fid, name := p.name, quantity := jsOrOne p.quantity,
         requestedScope := p.requestedScope, estimatedRate := p.estimatedRate,
         matchedRate := none, status := Status.noMatch }, 0) := rfl

theorem handleProcess_of_trim_ne (eOracle : ExtractorOracle) (mOracle : MatcherOracle)
    (fids : Nat → String) (text : String) (cat : List SORItem) (h : jsTrim text ≠ "") :
    handleProcess eOracle mOracle fids text cat =
      ⟨(processLoop (resolveItem mOracle cat) fids (parseBulkItems eOracle text).1 0).1,
       (parseBulkItems eOracle text).2,
       (processLoop (resolveItem mOracle cat) fids (parseBulkItems eOracle text).1 0).2⟩ := by
  unfold handleProcess
  rw [if_neg h]

theorem handleProcess_of_trim_eq (eOracle : ExtractorOracle) (mOracle : MatcherOracle)
    (fids : Nat → String) (text : String) (cat : List SORItem) (h : jsTrim text = "") :
    handleProcess eOracle mOracle fids text cat = ⟨[], 0, 0⟩ := by
  unfold handleProcess
  rw [if_pos h]

theorem handleProcessIdx_eq (eOracle : ExtractorOracle) (mOracle : MatcherOracle)
    (fids : Nat → String) (text : String) (cat : List SORItem) :
    handleProcessIdx eOracle mOracle fids text cat =
      ⟨(processLoop (resolveItemIdx mOracle cat) fids (parseBulkItems eOracle text).1 0).1,
       (parseBulkItems eOracle text).2,
       (processLoop (resolveItemIdx mOracle cat) fids (parseBulkItems eOracle text).1 0).2⟩ := rfl

theorem foldl_min_le_init (a : ℚ) (l : List ℚ) : l.foldl min a ≤ a := by
  induction l generalizing a with
  | nil => exact le_refl a
  | cons x xs ih => exact le_trans (ih (min a x)) (min_le_left a x)

theorem foldl_min_le_mem (l : List ℚ) (y : ℚ) (h : y ∈ l) : ∀ a : ℚ, l.foldl min a ≤ y := by
  induction l with
  | nil => cases h
  | cons x xs ih =>
    intro a
    rcases List.mem_cons.mp h with rfl | hm
    · exact le_trans (foldl_min_le_init (min a y) xs) (min_le_right a y)
    · exact ih hm (min a x)

theorem foldl_min_mem (l : List ℚ) : ∀ a : ℚ, l.foldl min a = a ∨ l.foldl min a ∈ l := by
  induction l with
  | nil => intro a; left; rfl
  | cons x xs ih =>
    intro a
    rw [List.foldl_cons]
    rcases ih (min a x) with h | h
    · rcases min_cases a x with ⟨h2, _⟩ | ⟨h2, _⟩
      · left; rw [h, h2]
      · right; rw [h, h2]; exact List.mem_cons_self x xs
    · right; exact List.mem_cons_of_mem x h

theorem jsMathMin_mem (x : ℚ) (xs : List ℚ) : jsMathMin (x :: xs) ∈ x :: xs := by
  rcases foldl_min_mem xs x with h | h
  · rw [jsMathMin, h]; exact List.mem_cons_self x xs
  · exact List.mem_cons_of_mem x h

theorem jsMathMin_le (x : ℚ) (xs : List ℚ) (y : ℚ) (h : y ∈ x :: xs) :
    jsMathMin (x :: xs) ≤ y := by
  rcases List.mem_cons.mp h with rfl | hm
  · exact foldl_min_le_init y xs
  · exact foldl_min_le_mem xs y hm x

theorem calculateTotal_eq_foldl_map (items : List TenderItem) :
    calculateTotal items = (items.map lineAmount).foldl addCore (0, 0) := by
  unfold calculateTotal
  rw [List.foldl_map]

theorem statusOf_pending_iff (bm : Option SORItem) (pname : String) :
    statusOf bm pname ≠ Status.pending ∧
    (bm.isSome = true ↔ statusOf bm pname ≠ Status.noMatch) := by
  cases bm with
  | none => simp [statusOf]
  | some m =>
    by_cases hn : (jsToLower m.name == jsToLower pname) = true
    · simp [statusOf, hn]
    · simp [statusOf, hn]

theorem statusOfIdx_pending_iff (bm : Option SORItem) :
    statusOfIdx bm ≠ Status.pending ∧
    (bm.isSome = true ↔ statusOfIdx bm ≠ Status.noMatch) := by
  cases bm with
  | none => simp [statusOfIdx]
  | some m => simp [statusOfIdx]

/-! ## Claims -/

/-- C2: if the external extraction call throws or returns unparseable
content (the `.error` case of the oracle, which the source catches),
`parseBulkItems` yields the empty sequence and both orchestrators return
an empty item list.  The embedding is a total function into
`ProcResult`, so no exception propagates to the caller. -/
theorem c2_extractor_failure (eOracle : ExtractorOracle) (mOracle : MatcherOracle)
    (fids : Nat → String) (text : String) (cat : List SORItem) (msg : String)
    (h : eOracle text = Except.error msg) :
    (parseBulkItems eOracle text).1 = [] ∧
    (handleProcess eOracle mOracle fids text cat).items = [] ∧
    (handleProcessIdx eOracle mOracle fids text cat).items = [] := by
  have hp : parseBulkItems eOracle text = ([], 1) := by
    unfold parseBulkItems
    rw [h]
  refine ⟨by rw [hp], ?_, ?_⟩
  · by_cases ht : jsTrim text = ""
    · rw [handleProcess_of_trim_eq _ _ _ _ _ ht]
    · rw [handleProcess_of_trim_ne _ _ _ _ _ ht, hp]
      rfl
  · rw [handleProcessIdx_eq, hp]
    rfl

/-- C2 witness: a concrete failing extractor yields an empty quotation. -/
theorem c2_extractor_failure_witness :
    errEO "quota exceeded" "some tender text" = Except.error "quota exceeded" ∧
    (handleProcess (errEO "quota exceeded") (constMO (some "A")) fidsDefault
      "some tender text" [recPipe]).items = [] ∧
    (handleProcessIdx (errEO "quota exceeded") (constMO (some "A")) fidsDefault
      "some tender text" [recPipe]).items = [] := by
  have h := c2_extractor_failure (errEO "quota exceeded") (constMO (some "A")) fidsDefault
    "some tender text" [recPipe] "quota exceeded" rfl
  exact ⟨rfl, h.2.1, h.2.2⟩

/-- C3: against the empty catalog `findBestMatchingItem` answers null
with zero external calls, both orchestrators make zero matcher calls,
and every produced item has status no-match and no matchedRate. -/
theorem c3_empty_catalog (eOracle : ExtractorOracle) (mOracle : MatcherOracle)
    (fids : Nat → String) (text nm sc : String) (item : TenderItem)
    (h : item ∈ (handleProcess eOracle mOracle fids text []).items ∨
         item ∈ (handleProcessIdx eOracle mOracle fids text []).items) :
    findBestMatchingItem mOracle nm sc [] = (none, 0) ∧
    (handleProcess eOracle mOracle fids text []).matcherCalls = 0 ∧
    (handleProcessIdx eOracle mOracle fids text []).matcherCalls = 0 ∧
    item.status = Status.noMatch ∧ item.matchedRate = none := by
  have hre : ∀ (s : String) (p : Candidate), (resolveItem mOracle [] s p).2 = 0 := by
    intro s p
    rw [resolveItem_empty]
  have hreIdx : ∀ (s : String) (p : Candidate), (resolveItemIdx mOracle [] s p).2 = 0 := by
    intro s p
    rw [resolveItemIdx_empty]
  have hc1 : (handleProcess eOracle mOracle fids text []).matcherCalls = 0 := by
    by_cases ht : jsTrim text = ""
    · rw [handleProcess_of_trim_eq _ _ _ _ _ ht]
    · rw [handleProcess_of_trim_ne _ _ _ _ _ ht]
      exact processLoop_calls_zero _ fids hre _ 0
  have hc2 : (handleProcessIdx eOracle mOracle fids text []).matcherCalls = 0 := by
    rw [handleProcessIdx_eq]
    exact processLoop_calls_zero _ fids hreIdx _ 0
  have hitem : item.status = Status.noMatch ∧ item.matchedRate = none := by
    rcases h with hmem | hmem
    · by_cases ht : jsTrim text = ""
      · rw [handleProcess_of_trim_eq _ _ _ _ _ ht] at hmem
        cases hmem
      · rw [handleProcess_of_trim_ne _ _ _ _ _ ht] at hmem
        obtain ⟨s, p, _, he⟩ := processLoop_mem _ _ _ _ _ hmem
        subst he
        rw [resolveItem_empty]
        exact ⟨rfl, rfl⟩
    · rw [handleProcessIdx_eq] at hmem
      obtain ⟨s, p, _, he⟩ := processLoop_mem _ _ _ _ _ hmem
      subst he
      rw [resolveItemIdx_empty]
      exact ⟨rfl, rfl⟩
  exact ⟨rfl, hc1, hc2, hitem⟩

/-- C3 witness: a concrete run against the empty catalog. -/
theorem c3_empty_catalog_witness :
    (resolveItem (constMO (some "A")) [] (fidsDefault 0) candPipe).1 ∈
      (handleProcess (constEO [candPipe]) (constMO (some "A")) fidsDefault "quote this" []).items ∧
    (handleProcess (constEO [candPipe]) (constMO (some "A")) fidsDefault "quote this" []).matcherCalls = 0 ∧
    (resolveItem (constMO (some "A")) [] (fidsDefault 0) candPipe).1.status = Status.noMatch := by
  have hmem : (resolveItem (constMO (some "A")) [] (fidsDefault 0) candPipe).1 ∈
      (handleProcess (constEO [candPipe]) (constMO (some "A")) fidsDefault "quote this" []).items := by
    decide
  have h := c3_empty_catalog (constEO [candPipe]) (constMO (some "A")) fidsDefault
    "quote this" "n" "s" (resolveItem (constMO (some "A")) [] (fidsDefault 0) candPipe).1
    (Or.inl hmem)
  exact ⟨hmem, h.2.1, h.2.2.2.1⟩

/-- C5 (amended): in the part_001 orchestrator every empty-or-whitespace
input short-circuits to the empty result with no extraction and no
matching call; the index.tsx orchestrator has no such guard (its caller
disables the button instead), see the counterexample. -/
theorem c5_empty_input (eOracle : ExtractorOracle) (mOracle : MatcherOracle)
    (fids : Nat → String) (text : String) (cat : List SORItem) (h : jsTrim text = "") :
    handleProcess eOracle mOracle fids text cat = ⟨[], 0, 0⟩ :=
  handleProcess_of_trim_eq eOracle mOracle fids text cat h

/-- C5 witness: a whitespace-only input against a non-empty catalog. -/
theorem c5_empty_input_witness :
    jsTrim "  " = "" ∧
    handleProcess (constEO [candPipe]) (constMO (some "A")) fidsDefault "  " [recPipe] =
      ⟨[], 0, 0⟩ :=
  ⟨by decide, c5_empty_input (constEO [candPipe]) (constMO (some "A")) fidsDefault "  " [recPipe]
    (by decide)⟩

/-- C5 counterexample: the index.tsx orchestrator, run on whitespace-only
input, does perform the external extraction (one call) and returns
whatever the extractor yields, refuting the claim as stated for that
orchestrator. -/
theorem c5_counterexample :
    jsTrim " " = "" ∧
    (handleProcessIdx (constEO [candPipe]) (constMO none) fidsDefault " " []).extractorCalls = 1 ∧
    (handleProcessIdx (constEO [candPipe]) (constMO none) fidsDefault " " []).items ≠ [] := by
  decide

/-- C8 (amended): the App.tsx load effect tolerates every payload —
a parse failure or an absent key degrades to the empty catalog — while
the index.tsx / part_001 load effects propagate the parse exception. -/
theorem c8_load_variants (saved : Option (Except String (List SORItem)))
    (l : List SORItem) (e : String) :
    (saved = some (Except.ok l) →
      loadCatalogApp saved = l ∧ loadCatalogIdx saved = Except.ok l) ∧
    (saved = some (Except.error e) →
      loadCatalogApp saved = [] ∧ loadCatalogIdx saved = Except.error e) ∧
    (saved = none →
      loadCatalogApp saved = [] ∧ loadCatalogIdx saved = Except.ok []) := by
  refine ⟨?_, ?_, ?_⟩ <;> rintro rfl <;> exact ⟨rfl, rfl⟩

/-- C8 witness: concrete payloads for all three cases. -/
theorem c8_load_variants_witness :
    (loadCatalogApp (some (Except.ok [recPipe])) = [recPipe] ∧
     loadCatalogIdx (some (Except.ok [recPipe])) = Except.ok [recPipe]) ∧
    (loadCatalogApp (some (Except.error "bad json")) = [] ∧
     loadCatalogIdx (some (Except.error "bad json")) = Except.error "bad json") ∧
    (loadCatalogApp none = [] ∧ loadCatalogIdx none = Except.ok []) :=
  ⟨(c8_load_variants (some (Except.ok [recPipe])) [recPipe] "bad json").1 rfl,
   (c8_load_variants (some (Except.error "bad json")) [recPipe] "bad json").2.1 rfl,
   (c8_load_variants none [recPipe] "bad json").2.2 rfl⟩

/-- C8 counterexample: on a corrupt stored payload the index.tsx /
part_001 load effect is fatal — the `JSON.parse` exception escapes
instead of degrading to a catalog — refuting the claim as stated for
those variants (the App.tsx variant does degrade to the empty catalog). -/
theorem c8_counterexample :
    loadCatalogIdx (some (Except.error "SyntaxError: Unexpected token")) =
      Except.error "SyntaxError: Unexpected token" ∧
    loadCatalogApp (some (Except.error "SyntaxError: Unexpected token")) = [] :=
  ⟨rfl, rfl⟩

/-- The rational 1/10, whose binary64 image is the double 0.1. -/
def qTenth : ℚ := Rat.mk' 1 10 (by decide) (by decide)

/-- The rational 1/5, whose binary64 image is the double 0.2. -/
def qFifth : ℚ := Rat.mk' 1 5 (by decide) (by decide)

/-- The rational 3/10, whose binary64 image is the double 0.3. -/
def qThreeTenths : ℚ := Rat.mk' 3 10 (by decide) (by decide)

/-- A catalog record priced at 0.1, for the C9 order-sensitivity run. -/
def recTenth : SORItem :=
  { id := "d1", name := "Tenth", unit := "u", rate := qTenth, scopeOfWork := "",
    source := "", timestamp := 1 }

/-- A catalog record priced at 0.2, for the C9 order-sensitivity run. -/
def recFifth : SORItem :=
  { id := "d2", name := "Fifth", unit := "u", rate := qFifth, scopeOfWork := "",
    source := "", timestamp := 2 }

/-- A catalog record priced at 0.3, for the C9 order-sensitivity run. -/
def recThreeTenths : SORItem :=
  { id := "d3", name := "ThreeTenths", unit := "u", rate := qThreeTenths, scopeOfWork := "",
    source := "", timestamp := 3 }

/-- A unit-quantity line matched at rate 0.1. -/
def tFloatA : TenderItem :=
  { id := "x1", name := "a", quantity := 1, requestedScope := "",
    estimatedRate := none, matchedRate := some recTenth, status := Status.review }

/-- A unit-quantity line matched at rate 0.2. -/
def tFloatB : TenderItem :=
  { id := "x2", name := "b", quantity := 1, requestedScope := "",
    estimatedRate := none, matchedRate := some recFifth, status := Status.review }

/-- A unit-quantity line matched at rate 0.3. -/
def tFloatC : TenderItem :=
  { id := "x3", name := "c", quantity := 1, requestedScope := "",
    estimatedRate := none, matchedRate := some recThreeTenths, status := Status.review }

set_option maxRecDepth 8000 in
/-- C9 counterexample: the grand total is not permutation-invariant in
the program's binary64 arithmetic — line amounts 0.1, 0.2, 0.3 summed in
that order give the double 0.6000000000000001
(5404319552844596 × 2⁻⁵³), reversed they give 0.6
(5404319552844595 × 2⁻⁵³), refuting the claimed invariance. -/
theorem c9_counterexample :
    List.Perm [tFloatA, tFloatB, tFloatC] [tFloatC, tFloatB, tFloatA] ∧
    calculateTotal [tFloatA, tFloatB, tFloatC] = (5404319552844596, -53) ∧
    calculateTotal [tFloatC, tFloatB, tFloatA] = (5404319552844595, -53) ∧
    calculateTotal [tFloatA, tFloatB, tFloatC] ≠ calculateTotal [tFloatC, tFloatB, tFloatA] := by
  refine ⟨?_, by decide, by decide, by decide⟩
  exact ((List.Perm.swap tFloatB tFloatA [tFloatC]).trans
    (List.Perm.cons tFloatB (List.Perm.swap tFloatC tFloatA []))).trans
    (List.Perm.swap tFloatC tFloatB [tFloatA])

set_option maxRecDepth 8000 in
/-- C9 (amended): the grand total is the left-to-right fold, in item
order, of binary64 additions of the per-item binary64 amounts
quantity × (matched rate or 0); this fold is order-sensitive — there are
permuted item lists whose totals differ — so it is not invariant under
every permutation. -/
theorem c9_grand_total (items : List TenderItem) :
    calculateTotal items = (items.map lineAmount).foldl addCore (0, 0) ∧
    ∃ l1 l2 : List TenderItem, List.Perm l1 l2 ∧
      calculateTotal l1 ≠ calculateTotal l2 := by
  refine ⟨calculateTotal_eq_foldl_map items,
    [tFloatA, tFloatB, tFloatC], [tFloatC, tFloatB, tFloatA], ?_, by decide⟩
  exact ((List.Perm.swap tFloatB tFloatA [tFloatC]).trans
    (List.Perm.cons tFloatB (List.Perm.swap tFloatC tFloatA []))).trans
    (List.Perm.swap tFloatC tFloatB [tFloatA])

/-- A catalog record whose name differs from the candidates' names, used
by the C1 and C10 witnesses. -/
def recGI : SORItem :=
  { id := "B", name := "GI Pipe 25mm", unit := "m", rate := 120, scopeOfWork := "GI pipe",
    source := "SOR-2", timestamp := 11 }

/-- C1 counterexample: in the `src/index.tsx` orchestrator a candidate
named "pipe" matched to the record named "Pipe" — equal names after
lowercasing — still gets status 'review', not 'matched', refuting the
claim as stated for that orchestrator. -/
theorem c1_counterexample :
    (handleProcessIdx (constEO [candPipe]) (constMO (some "A")) fidsDefault "tender"
      [recPipe]).items.map TenderItem.status = [Status.review] ∧
    (handleProcessIdx (constEO [candPipe]) (constMO (some "A")) fidsDefault "tender"
      [recPipe]).items.map (fun i => i.matchedRate.map SORItem.name) = [some "Pipe"] ∧
    jsToLower "Pipe" = jsToLower "pipe" ∧
    Status.review ≠ Status.matched := by
  decide

/-- C1 (amended): in the part_001 orchestrator every produced item obeys
the claimed rule — no match gives 'no-match', a match with equal
lowercased names gives 'matched', a match with different names gives
'review'; the index.tsx orchestrator instead assigns 'review' to every
found match and 'no-match' otherwise. -/
theorem c1_status_assignment (eOracle : ExtractorOracle) (mOracle : MatcherOracle)
    (fids : Nat → String) (text : String) (cat : List SORItem) (item : TenderItem) :
    (item ∈ (handleProcess eOracle mOracle fids text cat).items →
      (item.matchedRate = none → item.status = Status.noMatch) ∧
      ∀ m : SORItem, item.matchedRate = some m →
        (jsToLower m.name = jsToLower item.name → item.status = Status.matched) ∧
        (jsToLower m.name ≠ jsToLower item.name → item.status = Status.review)) ∧
    (item ∈ (handleProcessIdx eOracle mOracle fids text cat).items →
      (item.matchedRate = none → item.status = Status.noMatch) ∧
      ∀ m : SORItem, item.matchedRate = some m → item.status = Status.review) := by
  constructor
  · intro hmem
    by_cases ht : jsTrim text = ""
    · rw [handleProcess_of_trim_eq _ _ _ _ _ ht] at hmem
      cases hmem
    · rw [handleProcess_of_trim_ne _ _ _ _ _ ht] at hmem
      obtain ⟨s, p, _, he⟩ := processLoop_mem _ _ _ _ _ hmem
      subst he
      have hs := resolveItem_status mOracle cat s p
      constructor
      · intro hn
        rw [hn] at hs
        rw [hs, statusOf_none]
      · intro m hm
        rw [hm] at hs
        rw [statusOf_some] at hs
        constructor
        · intro heq
          rw [hs]
          simp [heq]
        · intro hne
          rw [hs]
          simp [hne]
  · intro hmem
    rw [handleProcessIdx_eq] at hmem
    obtain ⟨s, p, _, he⟩ := processLoop_mem _ _ _ _ _ hmem
    subst he
    have hs := resolveItemIdx_status mOracle cat s p
    constructor
    · intro hn
      rw [hn] at hs
      rw [hs, statusOfIdx_none]
    · intro m hm
      rw [hm] at hs
      rw [hs, statusOfIdx_some]

/-- C1 witness: a concrete item (candidate "pipe" matched to
"GI Pipe 25mm") that both orchestrators produce; both halves of the
amended rule apply and classify it 'review'. -/
theorem c1_status_assignment_witness :
    (resolveItem (constMO (some "B")) [recGI] (fidsDefault 0) candPipe).1.status =
      Status.review ∧
    (resolveItemIdx (constMO (some "B")) [recGI] (fidsDefault 0) candPipe).1.status =
      Status.review := by
  have h1 := (c1_status_assignment (constEO [candPipe]) (constMO (some "B")) fidsDefault
    "tender" [recGI] (resolveItem (constMO (some "B")) [recGI] (fidsDefault 0) candPipe).1).1
    (by decide)
  have h2 := (c1_status_assignment (constEO [candPipe]) (constMO (some "B")) fidsDefault
    "tender" [recGI] (resolveItemIdx (constMO (some "B")) [recGI] (fidsDefault 0) candPipe).1).2
    (by decide)
  refine ⟨(h1.2 recGI (by decide)).2 (by decide), h2.2 recGI (by decide)⟩

/-- C4 counterexample: a candidate extracted with quantity −5 keeps
quantity −5 in the resulting item — the JS `||` default only replaces
falsy values, and a negative number is truthy — refuting the claimed
"defaults to 1 when not positive". -/
theorem c4_counterexample :
    (handleProcess (constEO [candNeg]) (constMO none) fidsDefault "x" []).items.map
      TenderItem.quantity = [-5] ∧
    (-5 : ℚ) < 0 ∧ (-5 : ℚ) ≠ 1 := by
  decide

/-- C4 (amended): in both orchestrators the item at position i carries
quantity 1 when the candidate's quantity is absent (or a falsy
non-number) or zero, and the candidate's own quantity — including a
negative one — whenever it is any non-zero number. -/
theorem c4_quantity (eOracle : ExtractorOracle) (mOracle : MatcherOracle)
    (fids : Nat → String) (text : String) (cat : List SORItem) (i : Nat)
    (h : i < ((parseBulkItems eOracle text).1).length)
    (item : TenderItem)
    (hit : (handleProcess eOracle mOracle fids text cat).items[i]? = some item ∨
           (handleProcessIdx eOracle mOracle fids text cat).items[i]? = some item) :
    (((parseBulkItems eOracle text).1.get ⟨i, h⟩).quantity = none → item.quantity = 1) ∧
    (((parseBulkItems eOracle text).1.get ⟨i, h⟩).quantity = some 0 → item.quantity = 1) ∧
    ∀ q : ℚ, q ≠ 0 → ((parseBulkItems eOracle text).1.get ⟨i, h⟩).quantity = some q →
      item.quantity = q := by
  have key : item.quantity =
      jsOrOne (((parseBulkItems eOracle text).1.get ⟨i, h⟩).quantity) := by
    rcases hit with hit | hit
    · by_cases ht : jsTrim text = ""
      · rw [handleProcess_of_trim_eq _ _ _ _ _ ht] at hit
        simp at hit
      · rw [handleProcess_of_trim_ne _ _ _ _ _ ht] at hit
        rw [processLoop_getElem _ _ _ 0 i h] at hit
        rw [← Option.some.inj hit]
        rfl
    · rw [handleProcessIdx_eq] at hit
      rw [processLoop_getElem _ _ _ 0 i h] at hit
      rw [← Option.some.inj hit]
      rfl
  refine ⟨?_, ?_, ?_⟩
  · intro hq
    rw [key, hq]
    rfl
  · intro hq
    rw [key, hq]
    simp [jsOrOne]
  · intro q hqne hq
    rw [key, hq]
    simp [jsOrOne, hqne]

/-- C4 witness: a candidate extracted with quantity 50 yields an item of
quantity 50 in each orchestrator. -/
theorem c4_quantity_witness :
    (resolveItem (constMO none) [] (fidsDefault 0) candPipe).1.quantity = 50 ∧
    (resolveItemIdx (constMO none) [] (fidsDefault 0) candPipe).1.quantity = 50 := by
  have h1 := c4_quantity (constEO [candPipe]) (constMO none) fidsDefault "x" [] 0
    (by decide) (resolveItem (constMO none) [] (fidsDefault 0) candPipe).1
    (Or.inl (by decide))
  have h2 := c4_quantity (constEO [candPipe]) (constMO none) fidsDefault "x" [] 0
    (by decide) (resolveItemIdx (constMO none) [] (fidsDefault 0) candPipe).1
    (Or.inr (by decide))
  exact ⟨h1.2.2 50 (by norm_num) (by decide), h2.2.2 50 (by norm_num) (by decide)⟩

/-- C10: every item produced by either orchestrator has a status other
than 'pending', and its matchedRate is present exactly when the status
is not 'no-match'. -/
theorem c10_status_invariant (eOracle : ExtractorOracle) (mOracle : MatcherOracle)
    (fids : Nat → String) (text : String) (cat : List SORItem) (item : TenderItem)
    (h : item ∈ (handleProcess eOracle mOracle fids text cat).items ∨
         item ∈ (handleProcessIdx eOracle mOracle fids text cat).items) :
    item.status ≠ Status.pending ∧
    (item.matchedRate.isSome = true ↔ item.status ≠ Status.noMatch) := by
  rcases h with hmem | hmem
  · by_cases ht : jsTrim text = ""
    · rw [handleProcess_of_trim_eq _ _ _ _ _ ht] at hmem
      cases hmem
    · rw [handleProcess_of_trim_ne _ _ _ _ _ ht] at hmem
      obtain ⟨s, p, _, he⟩ := processLoop_mem _ _ _ _ _ hmem
      subst he
      rw [resolveItem_status]
      exact statusOf_pending_iff _ _
  · rw [handleProcessIdx_eq] at hmem
    obtain ⟨s, p, _, he⟩ := processLoop_mem _ _ _ _ _ hmem
    subst he
    rw [resolveItemIdx_status]
    exact statusOfIdx_pending_iff _

/-- C10 witness: a concrete matched item produced by the part_001
orchestrator has a non-'pending' status and a present matchedRate. -/
theorem c10_status_invariant_witness :
    (resolveItem (constMO (some "B")) [recGI] (fidsDefault 0) candNeg).1.status ≠
      Status.pending ∧
    (resolveItem (constMO (some "B")) [recGI] (fidsDefault 0) candNeg).1.matchedRate.isSome =
      true := by
  have h := c10_status_invariant (constEO [candNeg]) (constMO (some "B")) fidsDefault
    "tender" [recGI] (resolveItem (constMO (some "B")) [recGI] (fidsDefault 0) candNeg).1
    (Or.inl (by decide))
  exact ⟨h.1, h.2.mpr (by decide)⟩

theorem min_flag_iff (S : List SORItem) (item : SORItem) (hS : item ∈ S) :
    (S.length > 1 ∧ item.rate = jsMathMin (S.map SORItem.rate)) ↔
    (2 ≤ S.length ∧ ∀ r ∈ S, item.rate ≤ r.rate) := by
  obtain ⟨s, ss, rfl⟩ := List.exists_cons_of_ne_nil (List.ne_nil_of_mem hS)
  rw [List.map_cons]
  constructor
  · rintro ⟨hlen, hmin⟩
    refine ⟨hlen, ?_⟩
    intro r hr
    rw [hmin]
    apply jsMathMin_le
    rw [← List.map_cons]
    exact List.mem_map_of_mem SORItem.rate hr
  · rintro ⟨hlen, hle⟩
    refine ⟨hlen, ?_⟩
    apply le_antisymm
    · have hmem := jsMathMin_mem s.rate (ss.map SORItem.rate)
      rw [← List.map_cons] at hmem
      obtain ⟨r, hrS, hre⟩ := List.mem_map.mp hmem
      rw [List.map_cons] at hre
      rw [← hre]
      exact hle r hrS
    · have hmem : item.rate ∈ s.rate :: ss.map SORItem.rate := by
        rw [← List.map_cons]
        exact List.mem_map_of_mem SORItem.rate hS
      exact jsMathMin_le _ _ _ hmem

theorem isLowest_eq (allRates : List SORItem) (item : SORItem) :
    isLowest allRates item = true ↔
      (allRates.filter fun r => jsToLower r.name == jsToLower item.name).length > 1 ∧
      item.rate = jsMathMin ((allRates.filter fun r =>
        jsToLower r.name == jsToLower item.name).map SORItem.rate) := by
  unfold isLowest
  simp [Bool.and_eq_true, decide_eq_true_eq]

/-- C6: a record of the catalog is flagged lowest exactly when at least
two records share its name case-insensitively and its rate is a minimum
among them; with several records tied at the minimum the criterion holds
for each of them and fails for every non-minimal record. -/
theorem c6_isLowest_iff (allRates : List SORItem) (item : SORItem) (h : item ∈ allRates) :
    isLowest allRates item = true ↔
      2 ≤ (allRates.filter fun r => jsToLower r.name == jsToLower item.name).length ∧
      ∀ r ∈ allRates.filter (fun r => jsToLower r.name == jsToLower item.name),
        item.rate ≤ r.rate := by
  rw [isLowest_eq]
  exact min_flag_iff _ item (List.mem_filter.mpr ⟨h, by simp⟩)

/-- The rate-100 "Excavation" record of the spec scenario. -/
def recExcA : SORItem :=
  { id := "A", name := "Excavation", unit := "m3", rate := 100, scopeOfWork := "dig",
    source := "", timestamp := 1 }

/-- The rate-80 "Excavation" record of the spec scenario. -/
def recExcB : SORItem :=
  { id := "B", name := "Excavation", unit := "m3", rate := 80, scopeOfWork := "dig",
    source := "", timestamp := 2 }

/-- C6 witness: the spec scenario — two "Excavation" records at rates
100 and 80; the cheaper one is flagged lowest, the other is not. -/
theorem c6_isLowest_iff_witness :
    isLowest [recExcA, recExcB] recExcB = true ∧
    isLowest [recExcA, recExcB] recExcA = false := by
  constructor
  · exact (c6_isLowest_iff [recExcA, recExcB] recExcB (by decide)).mpr (by decide)
  · have h := c6_isLowest_iff [recExcA, recExcB] recExcA (by decide)
    cases hB : isLowest [recExcA, recExcB] recExcA with
    | false => rfl
    | true => exact absurd (h.mp hB) (by decide)

/-- Replacement fields used by the C7 witness. -/
def fNew : SORFields :=
  { name := "Pipe HD", unit := "m", rate := 150, scopeOfWork := "HDPE pipe supply",
    source := "SOR-3" }

/-- C7: updating the record with a present id preserves the catalog's
length and order; the targeted position gets the supplied non-identity
fields with its id and creation timestamp preserved, and every other
position is left unchanged. -/
theorem c7_update_frame (sorData : List SORItem) (eid : String) (f : SORFields)
    (hpresent : ∃ r ∈ sorData, r.id = eid) :
    (handleAddOrUpdateRate sorData eid f).length = sorData.length ∧
    ∀ (i : Nat) (hi : i < sorData.length),
      (handleAddOrUpdateRate sorData eid f)[i]? =
        some (if (sorData.get ⟨i, hi⟩).id = eid then
          { id := (sorData.get ⟨i, hi⟩).id, name := f.name, unit := f.unit, rate := f.rate,
            scopeOfWork := f.scopeOfWork, source := f.source,
            timestamp := (sorData.get ⟨i, hi⟩).timestamp }
        else sorData.get ⟨i, hi⟩) := by
  constructor
  · unfold handleAddOrUpdateRate
    exact List.length_map _ _
  · intro i hi
    unfold handleAddOrUpdateRate
    rw [List.getElem?_map, List.getElem?_eq_getElem hi]
    rfl

/-- C7 witness: editing id "A" in a two-record catalog rewrites that
record's fields (id and timestamp kept) and leaves the other record at
its position. -/
theorem c7_update_frame_witness :
    (handleAddOrUpdateRate [recPipe, recGI] "A" fNew)[0]? =
      some { id := "A", name := "Pipe HD", unit := "m", rate := 150,
             scopeOfWork := "HDPE pipe supply", source := "SOR-3", timestamp := 10 } ∧
    (handleAddOrUpdateRate [recPipe, recGI] "A" fNew)[1]? = some recGI := by
  have h := c7_update_frame [recPipe, recGI] "A" fNew (by decide)
  constructor
  · rw [h.2 0 (by decide)]
    decide
  · rw [h.2 1 (by decide)]
    decide
